import Mathlib

/-!
Shallow embedding of the cactus repository core (2D AABB physics broad
phase, impulse solver, generational containers, archetype ECS) and proofs
about the claims of its specification.

Numeric convention: the C++ code computes over 32-bit floats supplied by
the glm math library; here all coordinates, masses and areas are embedded
as rationals, and machine-integer fields (32-bit slot indices and
generations) as naturals reduced mod 2^32 where the code truncates.
-/

namespace Cactus

/-! ## AABB primitives, from src/src/physics/physics.cpp lines 18-46.
`AABB` is the code's `mat2x2` used as (lo, hi); `Collider` is (center,
halfexts). -/

structure Vec2 where
  x : ℚ
  y : ℚ
deriving DecidableEq, Repr

def vadd (a b : Vec2) : Vec2 := ⟨a.x + b.x, a.y + b.y⟩

def vsub (a b : Vec2) : Vec2 := ⟨a.x - b.x, a.y - b.y⟩

def vmin (a b : Vec2) : Vec2 := ⟨min a.x b.x, min a.y b.y⟩

def vmax (a b : Vec2) : Vec2 := ⟨max a.x b.x, max a.y b.y⟩

def vabs (a : Vec2) : Vec2 := ⟨|a.x|, |a.y|⟩

def vscale (c : ℚ) (a : Vec2) : Vec2 := ⟨c * a.x, c * a.y⟩

def vdot (a b : Vec2) : ℚ := a.x * b.x + a.y * b.y

structure AABB where
  lo : Vec2
  hi : Vec2
deriving DecidableEq, Repr

structure Collider where
  center : Vec2
  halfexts : Vec2
deriving DecidableEq, Repr

def get_aabb (a : Collider) : AABB :=
  ⟨vsub a.center a.halfexts, vadd a.center a.halfexts⟩

def aabb_merge (a b : AABB) : AABB :=
  ⟨vmin a.lo b.lo, vmax a.hi b.hi⟩

def aabb_intersects (a b : AABB) : Bool :=
  decide (a.lo.x ≤ b.hi.x ∧ a.lo.y ≤ b.hi.y ∧ b.lo.x ≤ a.hi.x ∧ b.lo.y ≤ a.hi.y)

def aabb_contains (a b : AABB) : Bool :=
  decide (a.lo.x ≤ b.lo.x ∧ a.lo.y ≤ b.lo.y ∧ b.hi.x ≤ a.hi.x ∧ b.hi.y ≤ a.hi.y)

def aabb_volume (a : AABB) : ℚ :=
  (a.hi.x - a.lo.x) * (a.hi.y - a.lo.y)

def aabb_expand_margin (a : AABB) (margin : ℚ) : AABB :=
  ⟨vsub a.lo ⟨margin, margin⟩, vadd a.hi ⟨margin, margin⟩⟩

/-- An AABB is well formed when `lo ≤ hi` componentwise. -/
def aabbWF (a : AABB) : Bool :=
  decide (a.lo.x ≤ a.hi.x ∧ a.lo.y ≤ a.hi.y)

/-! ## Branch-and-bound sibling search, from
`PhysicsWorld::_tree_find_best_fitnode_helper` (physics.cpp lines 303-323)
and its call in `_tree_insert` (lines 212-217).
Only node AABBs matter to the search, so a tree node is embedded as its
AABB plus children; a node's identity is its left-first preorder path
(`false` = left child). -/

inductive PTree where
  | leaf (box : AABB)
  | node (box : AABB) (l r : PTree)
deriving DecidableEq, Repr

def PTree.box : PTree → AABB
  | .leaf b => b
  | .node b _ _ => b

/-- Candidate: preorder path of the node, and the cost value. -/
abbrev Cand := List Bool × ℚ

/-- Model of `if (cur_value < best->value) best = cur` -/
def improve (b : Cand) (x : Cand) : Cand :=
  if x.2 < b.2 then x else b

/-- Code model of `_tree_find_best_fitnode_helper`: `aabb` is the new
leaf's fat AABB, `acml` the accumulated inherited cost. -/
def findBestHelper (aabb : AABB) : Cand → ℚ → PTree → List Bool → Cand
  | best, acml, .leaf box, path =>
      improve best (path, aabb_volume (aabb_merge aabb box) + acml)
  | best, acml, .node box l r, path =>
      let mv := aabb_volume (aabb_merge aabb box)
      let best1 := improve best (path, mv + acml)
      let d := mv - aabb_volume box
      if aabb_volume aabb + d + acml < best1.2 then
        findBestHelper aabb
          (findBestHelper aabb best1 (acml + d) l (path ++ [false]))
          (acml + d) r (path ++ [true])
      else best1

/-- Code model of the search as `_tree_insert` performs it: the initial
best is the root with value `area(merge(fat_aabb, root.aabb))`, then the
helper walks the tree with zero accumulated cost. -/
def findBest (aabb : AABB) (t : PTree) : Cand :=
  findBestHelper aabb ([], aabb_volume (aabb_merge aabb t.box)) 0 t []

/-- Modelled from the spec: cost of each node in left-first preorder, the
node's own enclosing area `area(merge(candidate.aabb, newleaf.aabb))` plus
the inherited cost accumulated from the root. -/
def allCosts (aabb : AABB) : PTree → ℚ → List Bool → List Cand
  | .leaf box, acml, path => [(path, aabb_volume (aabb_merge aabb box) + acml)]
  | .node box l r, acml, path =>
      let mv := aabb_volume (aabb_merge aabb box)
      let d := mv - aabb_volume box
      (path, mv + acml) ::
        (allCosts aabb l (acml + d) (path ++ [false]) ++
          allCosts aabb r (acml + d) (path ++ [true]))

/-- Modelled from the spec: exhaustive search over all nodes, minimizing
the cost, ties resolved to the first candidate in left-first preorder. -/
def exhaustiveBest (aabb : AABB) (t : PTree) : Cand :=
  match allCosts aabb t 0 [] with
  | [] => ([], 0)
  | h :: rest => rest.foldl improve h

/-- All AABBs stored in the tree are well formed. -/
def ptreeWF : PTree → Bool
  | .leaf box => aabbWF box
  | .node box l r => aabbWF box && ptreeWF l && ptreeWF r

/-! ## Overlap enumeration, from `PhysicsWorld::_tree_get_collided_pairs`
(physics.cpp lines 287-297) and `_tree_get_collided_pairs_helper`
(lines 426-471) with `_tree_handle_self_collide_pair` (lines 419-425).

`ColliderKey` is the entry set's key, a `(index, generation)` pair with
`std::pair` lexicographic order. A tree node carries a numeric arena id
(standing for its address), its stored fat AABB, and its 7-bit group
`flag`; leaves carry a `ColliderKey`. The walk mutates per-node state —
the `is_self_check` bit and, through `std::swap(node0->key, node1->key)`
in the helper, the keys stored in leaves — so keys and self-check marks
are threaded through a walk state keyed by node id, seeded from the tree.
Entity lookup `get(key)->coll` is embedded as an association list from
keys to the entries' current tight AABBs. -/

abbrev CKey := Nat × Nat

/-- Model of `std::pair` `operator<` on keys: lexicographic. -/
def ckLt (a b : CKey) : Bool :=
  decide (a.1 < b.1 ∨ (a.1 = b.1 ∧ a.2 < b.2))

/-- Model of `std::pair` `operator<` on key pairs: lexicographic. -/
def pairLt (p q : CKey × CKey) : Bool :=
  ckLt p.1 q.1 || (p.1 == q.1 && ckLt p.2 q.2)

def pairLe (p q : CKey × CKey) : Bool :=
  pairLt p q || p == q

/-- Insertion sort by `operator<`; on key pairs (where equal elements are
identical) this yields the same list as `std::sort`. -/
def insertSorted (x : CKey × CKey) : List (CKey × CKey) → List (CKey × CKey)
  | [] => [x]
  | y :: ys => if pairLe x y then x :: y :: ys else y :: insertSorted x ys

def sortPairs : List (CKey × CKey) → List (CKey × CKey)
  | [] => []
  | x :: xs => insertSorted x (sortPairs xs)

inductive WTree where
  | leaf (id : Nat) (key : CKey) (box : AABB) (flag : Nat)
  | node (id : Nat) (box : AABB) (flag : Nat) (l r : WTree)
deriving DecidableEq, Repr

def WTree.box : WTree → AABB
  | .leaf _ _ b _ => b
  | .node _ b _ _ _ => b

def WTree.flag : WTree → Nat
  | .leaf _ _ _ f => f
  | .node _ _ f _ _ => f

def WTree.isLeaf : WTree → Bool
  | .leaf _ _ _ _ => true
  | .node _ _ _ _ _ => false

/-- Initial leaf-id ↦ key map, as stored in the tree before the walk. -/
def WTree.leafKeys : WTree → List (Nat × CKey)
  | .leaf i k _ _ => [(i, k)]
  | .node _ _ _ l r => l.leafKeys ++ r.leafKeys

/-- Mutable state of one enumeration walk: current leaf keys, ids of nodes
whose `is_self_check` bit is set, and the emitted pair list. -/
structure WalkSt where
  keys : List (Nat × CKey)
  selfdone : List Nat
  out : List (CKey × CKey)
deriving DecidableEq, Repr

def keyOf (st : WalkSt) (i : Nat) : CKey :=
  match st.keys.find? (fun p => p.1 == i) with
  | some p => p.2
  | none => (0, 0)

def setKeyOf (st : WalkSt) (i : Nat) (k : CKey) : WalkSt :=
  { st with keys := st.keys.map (fun p => if p.1 == i then (p.1, k) else p) }

/-- The entry set, reduced to what the walk reads: each live key's current
tight AABB `get_aabb(get(key)->coll)`. -/
abbrev EntryMap := List (CKey × AABB)

def entryBox (E : EntryMap) (k : CKey) : Option AABB :=
  match E.find? (fun p => p.1 == k) with
  | some p => some p.2
  | none => none

/-- The two recursive procedures of the walk, fused into one fuel-indexed
step function so the recursion is structural (and kernel-evaluable):
`cross t0 t1` is `_tree_get_collided_pairs_helper(node0, node1)`,
`selfp t` is `_tree_handle_self_collide_pair(node)`. `none` means the
fuel ran out (never the case in the concrete runs below). -/
inductive WalkTask where
  | cross (t0 t1 : WTree)
  | selfp (t : WTree)

/-- Leaf-leaf case of the helper: emit iff the entries' tight AABBs
intersect, after `if (node0->key.first > node1->key.second)
std::swap(node0->key, node1->key)` — which swaps the keys stored in the
two tree nodes. -/
def emitLeafPair (E : EntryMap) (i0 i1 : Nat) (st : WalkSt) : WalkSt :=
  let k0 := keyOf st i0
  let k1 := keyOf st i1
  match entryBox E k0, entryBox E k1 with
  | some b0, some b1 =>
      if aabb_intersects b0 b1 then
        if k0.1 > k1.2 then
          let st' := setKeyOf (setKeyOf st i0 k1) i1 k0
          { st' with out := st'.out ++ [(k1, k0)] }
        else
          { st with out := st.out ++ [(k0, k1)] }
      else st
  | _, _ => st

def walkRun (E : EntryMap) : Nat → WalkTask → WalkSt → Option WalkSt
  | 0, _, _ => none
  | fuel + 1, .selfp t, st =>
      match t with
      | .leaf _ _ _ _ => some st
      | .node i _ _ l r =>
          if st.selfdone.contains i then some st
          else
            match walkRun E fuel (.cross l r) st with
            | none => none
            | some st' => some { st' with selfdone := i :: st'.selfdone }
  | fuel + 1, .cross t0 t1, st =>
      if t0.flag &&& t1.flag ≠ 0 then some st
      else
        match t0, t1 with
        | .leaf i0 _ _ _, .leaf i1 _ _ _ => some (emitLeafPair E i0 i1 st)
        | .leaf _ _ _ _, .node _ _ f1 l1 r1 =>
            if ¬ aabb_intersects t0.box t1.box then
              if f1 = 0 then walkRun E fuel (.selfp t1) st else some st
            else
              (if f1 = 0 then walkRun E fuel (.selfp t1) st else some st).bind
                fun s1 => (walkRun E fuel (.cross t0 l1) s1).bind
                fun s2 => walkRun E fuel (.cross t0 r1) s2
        | .node _ _ f0 l0 r0, .leaf _ _ _ _ =>
            if ¬ aabb_intersects t0.box t1.box then
              if f0 = 0 then walkRun E fuel (.selfp t0) st else some st
            else
              (if f0 = 0 then walkRun E fuel (.selfp t0) st else some st).bind
                fun s1 => (walkRun E fuel (.cross l0 t1) s1).bind
                fun s2 => walkRun E fuel (.cross r0 t1) s2
        | .node _ _ f0 l0 r0, .node _ _ f1 l1 r1 =>
            if ¬ aabb_intersects t0.box t1.box then
              ((if f0 = 0 then walkRun E fuel (.selfp t0) st else some st).bind
                fun s1 => if f1 = 0 then walkRun E fuel (.selfp t1) s1 else some s1)
            else
              ((if f0 = 0 then walkRun E fuel (.selfp t0) st else some st).bind
                fun s1 => (if f1 = 0 then walkRun E fuel (.selfp t1) s1 else some s1).bind
                fun s2 => (walkRun E fuel (.cross l0 l1) s2).bind
                fun s3 => (walkRun E fuel (.cross l0 r1) s3).bind
                fun s4 => (walkRun E fuel (.cross r0 l1) s4).bind
                fun s5 => walkRun E fuel (.cross r0 r1) s5)

/-- Model of `_tree_get_collided_pairs`: clear every `is_self_check` bit (the walk
state starts empty), walk `(root.left, root.right)`, then `std::sort`. -/
def treeGetCollidedPairs (E : EntryMap) (t : WTree) (fuel : Nat) :
    Option (List (CKey × CKey)) :=
  match t with
  | .leaf _ _ _ _ => some []
  | .node _ _ _ l r =>
      match walkRun E fuel (.cross l r) ⟨t.leafKeys, [], []⟩ with
      | none => none
      | some st => some (sortPairs st.out)

/-- Well-formed tree: every leaf's key resolves in the entry set and its
stored fat AABB contains the entry's tight AABB; every internal node's
AABB contains its children's and its group is the AND of theirs; all
stored AABBs are well formed; groups fit in 7 bits. -/
def wtreeWFAux : WTree → Bool
  | .leaf _ _ box f => aabbWF box && decide (f < 128)
  | .node _ box f l r =>
      aabbWF box && decide (f < 128) &&
        aabb_contains box l.box && aabb_contains box r.box &&
        (f == (l.flag &&& r.flag)) && wtreeWFAux l && wtreeWFAux r

def leafEntriesOk (E : EntryMap) : WTree → Bool
  | .leaf _ k box _ =>
      match entryBox E k with
      | some tight => aabb_contains box tight
      | none => false
  | .node _ _ _ l r => leafEntriesOk E l && leafEntriesOk E r

def WTree.leafIds (t : WTree) : List Nat := t.leafKeys.map Prod.fst

def wtreeWF (E : EntryMap) (t : WTree) : Bool :=
  wtreeWFAux t && leafEntriesOk E t &&
    t.leafIds.Nodup && (t.leafKeys.map Prod.snd).Nodup

/-! ## `PhysicsWorld::is_collided` (physics.cpp lines 104-114): normalize
the query so `k0.first ≤ k1.first`, `std::lower_bound` the cached sorted
pair list, and if the iterator is not `end()` recheck the two entries'
current tight AABBs. -/

def lowerBoundHit (cache : List (CKey × CKey)) (q : CKey × CKey) : Bool :=
  (cache.find? (fun p => ¬ pairLt p q)).isSome

def is_collided (cache : List (CKey × CKey)) (E : EntryMap) (k0 k1 : CKey) :
    Bool :=
  let a := if k0.1 > k1.1 then k1 else k0
  let b := if k0.1 > k1.1 then k0 else k1
  if lowerBoundHit cache (a, b) then
    match entryBox E a, entryBox E b with
    | some x, some y => aabb_intersects x y
    | _, _ => false
  else false

/-! ## Impulse solver, from `PhysicsWorld::resolve_collider` (physics.cpp
lines 116-182). The entry's tree back-pointer plays no role here and is
omitted. `glm::length` (a square root, supplied by the out-of-scope math
library) is taken as a parameter `len`. The floats `0.8f`, `0.01f`,
`0.0001f` are the rationals 4/5, 1/100, 1/10000. The code divides by
`e0->invmass + e1->invmass` with no zero guard; the embedding returns
`none` exactly when that division by zero is reached (in C it produces
NaN/inf), and `some` of the two updated entries otherwise. -/

structure Entry where
  coll : Collider
  vel : Vec2
  invmass : ℚ
  restitution : ℚ
  sfriction : ℚ
  dfriction : ℚ
deriving DecidableEq, Repr

def resolve_collider (len : Vec2 → ℚ) (e0 e1 : Entry) :
    Option (Entry × Entry) :=
  let delta := vsub e1.coll.center e0.coll.center
  let overlap := vsub (vadd e0.coll.halfexts e1.coll.halfexts) (vabs delta)
  let normal : Vec2 :=
    if overlap.x < overlap.y then ⟨if delta.x > 0 then 1 else -1, 0⟩
    else ⟨0, if delta.y > 0 then 1 else -1⟩
  let penetration := if overlap.x < overlap.y then overlap.x else overlap.y
  let relVel := vsub e1.vel e0.vel
  let velAlongNormal := vdot relVel normal
  if velAlongNormal > 0 then some (e0, e1)
  else
    let restitution := min e0.restitution e1.restitution
    let msum := e0.invmass + e1.invmass
    if msum = 0 then none
    else
      let j := (-(1 + restitution) * velAlongNormal) / msum
      let impulse := vscale j normal
      let v0 := vsub e0.vel (vscale e0.invmass impulse)
      let v1 := vadd e1.vel (vscale e1.invmass impulse)
      let correction := vscale (4 / 5) (vscale (max (penetration - 1 / 100) 0 / msum) normal)
      let c0 := vsub e0.coll.center (vscale e0.invmass correction)
      let c1 := vadd e1.coll.center (vscale e1.invmass correction)
      let relVel2 := vsub v1 v0
      let tangent := vsub relVel2 (vscale (vdot relVel2 normal) normal)
      let tangentLen := len tangent
      let fin := fun (v0 v1 : Vec2) =>
        some ({ e0 with coll := ⟨c0, e0.coll.halfexts⟩, vel := v0 },
              { e1 with coll := ⟨c1, e1.coll.halfexts⟩, vel := v1 })
      if tangentLen > 1 / 10000 then
        let t := vscale (1 / tangentLen) tangent
        let jt := (-(vdot relVel2 t)) / msum
        let mu := len ⟨e0.sfriction, e1.sfriction⟩
        let frictionImpulse :=
          if |jt| < j * mu then vscale jt t
          else vscale (-(j * len ⟨e0.dfriction, e1.dfriction⟩)) t
        fin (vsub v0 (vscale e0.invmass frictionImpulse))
            (vadd v1 (vscale e1.invmass frictionImpulse))
      else fin v0 v1

/-! ## SlotMap, from src/src/data_structure/slot_map.cpp.

A 64-bit packed value `(index << 32) | generation` (a key, or a slot's
`(data_index, generation)` cell) is embedded as a pair of naturals; the
32-bit truncation of `set_idx` / `increase_gen` (lines 21-27) is kept as
`% 2^32`. Iterators into `data` are embedded as positions, `end()` being
`data.length`. -/

structure SKey where
  idx : Nat
  gen : Nat
deriving DecidableEq, Repr

instance : Inhabited SKey := ⟨⟨0, 0⟩⟩

/-- Model of `set_idx`: replace the high 32 bits. -/
def setIdx (k : SKey) (v : Nat) : SKey := ⟨v % 2 ^ 32, k.gen⟩

/-- Model of `increase_gen`: bump the low 32 bits, wrapping. -/
def increaseGen (k : SKey) : SKey := ⟨k.idx, (k.gen + 1) % 2 ^ 32⟩

structure SMap (α : Type) where
  slots : List SKey
  data_map : List Nat
  data : List α
  next_slot_idx : Nat
deriving Repr

def SMap.empty (α : Type) : SMap α := ⟨[], [], [], 0⟩

/-- Model of `SlotMap::find` (lines 54-62): `end()` if the slot index is out of
range or the stored generation mismatches, else the position
`get_idx(*slot_iter)` into `data` (which the caller compares against
`end()`). `none` is the out-of-range / mismatch `end()` return. -/
def SMap.find (s : SMap α) (k : SKey) : Option Nat :=
  if h : k.idx < s.slots.length then
    let sl := s.slots.get ⟨k.idx, h⟩
    if sl.gen = k.gen then some sl.idx else none
  else none

/-- Model of `SlotMap::at` (lines 73-77): empty iff `find` returned `end()`. -/
def SMap.atKey (s : SMap α) (k : SKey) : Option α :=
  match s.find k with
  | none => none
  | some d => if d = s.data.length then none else s.data.get? d

/-- Model of `SlotMap::emplace` (lines 95-114). Returns the new state and key. -/
def SMap.emplace (s : SMap α) (v : α) : SMap α × SKey :=
  let data_pos := s.data.length
  let s1 : SMap α :=
    { s with data := s.data ++ [v], data_map := s.data_map ++ [s.next_slot_idx] }
  let s2 : SMap α :=
    if s.next_slot_idx = s1.slots.length then
      { s1 with slots := s1.slots ++ [⟨(s.next_slot_idx + 1) % 2 ^ 32, 0⟩] }
    else s1
  let sl := s2.slots.getD s.next_slot_idx default
  let s3 : SMap α :=
    { s2 with
        slots := s2.slots.set s.next_slot_idx (setIdx sl data_pos),
        next_slot_idx := sl.idx }
  (s3, ⟨s.next_slot_idx % 2 ^ 32, sl.gen⟩)

def SMap.insert (s : SMap α) (v : α) : SMap α × SKey := s.emplace v

/-- Model of `SlotMap::erase(const_iterator)` (lines 123-145), `p` the iterator's
position in `data`. Swap-and-pop, then chain the slot into the free list
and bump its generation. Returns the new state and the result iterator's
position. -/
def SMap.eraseIter [Inhabited α] (s : SMap α) (p : Nat) : SMap α × Nat :=
  let si := s.data_map.getD p 0
  let d := (s.slots.getD si default).idx
  let last := s.data.length - 1
  let s1 : SMap α :=
    if d ≠ last then
      let lsi := s.data_map.getD last 0
      { s with
          data := s.data.set d (s.data.getD last default),
          slots := s.slots.set lsi (setIdx (s.slots.getD lsi default) d),
          data_map := s.data_map.set d lsi }
    else s
  let s2 : SMap α :=
    { s1 with data := s1.data.dropLast, data_map := s1.data_map.dropLast }
  let sl := s2.slots.getD si default
  let s3 : SMap α :=
    { s2 with
        slots := s2.slots.set si (increaseGen (setIdx sl s2.next_slot_idx)),
        next_slot_idx := si }
  (s3, d)

/-- Model of `SlotMap::erase(key_type)` (lines 164-170): resolve with `find`; if
the iterator is `end()` return `end()` without mutating, else erase by
iterator. -/
def SMap.eraseKey [Inhabited α] (s : SMap α) (k : SKey) : SMap α × Nat :=
  match s.find k with
  | none => (s, s.data.length)
  | some d =>
      if d = s.data.length then (s, s.data.length)
      else s.eraseIter d

/-- Fold a list of inserted values into the map, discarding keys. -/
def SMap.insertAll [Inhabited α] (s : SMap α) (vs : List α) : SMap α :=
  vs.foldl (fun acc v => (acc.emplace v).1) s

/-! ## FreelistVector, from src/src/data_structure/freelist_vector.cpp.

Each slot is a union (value | next free index) plus a `valid` flag. The
union payload is a sum; the sentinel `size_type(-1)` for the free-list
head is `none`. Reading the wrong union member (which C leaves
unspecified) yields `none` / the supplied default. -/

structure FLElem (α : Type) where
  pay : Sum (Option Nat) α
  valid : Bool
deriving Repr

structure FLVec (α : Type) where
  data : List (FLElem α)
  next_free : Option Nat
deriving Repr

def FLVec.empty (α : Type) : FLVec α := ⟨[], none⟩

/-- Model of `FreelistVector::at` (lines 95-100). -/
def FLVec.atIdx (v : FLVec α) (i : Nat) : Option α :=
  if i < v.data.length then
    let e := v.data.getD i ⟨Sum.inl none, false⟩
    if e.valid then
      match e.pay with
      | Sum.inr a => some a
      | Sum.inl _ => none
    else none
  else none

/-- Union read of the `next` member. -/
def FLElem.nextOf (e : FLElem α) : Option Nat :=
  match e.pay with
  | Sum.inl n => n
  | Sum.inr _ => none

/-- Model of `FreelistVector::emplace` (lines 117-132): no free slot → append;
otherwise pop the free-list head, overwrite it, mark valid. Returns the
slot index. -/
def FLVec.emplace (v : FLVec α) (a : α) : FLVec α × Nat :=
  match v.next_free with
  | none => (⟨v.data ++ [⟨Sum.inr a, true⟩], none⟩, v.data.length)
  | some i =>
      let nf := (v.data.getD i ⟨Sum.inl none, false⟩).nextOf
      (⟨v.data.set i ⟨Sum.inr a, true⟩, nf⟩, i)

/-- Model of `FreelistVector::erase(size_type)` (lines 141-147): invalid slots are
left alone; a valid slot stores the current head in its union, clears
`valid`, and becomes the new head. -/
def FLVec.eraseIdx (v : FLVec α) (i : Nat) : FLVec α :=
  let e := v.data.getD i ⟨Sum.inl none, false⟩
  if ¬ e.valid then v
  else ⟨v.data.set i ⟨Sum.inl v.next_free, false⟩, some i⟩

/-- Model of `operator[]` value read (line 108-111); reading a freed slot's value
is unspecified in C and yields the supplied default. -/
def FLVec.readIdx (v : FLVec α) (i : Nat) (dflt : α) : α :=
  match (v.data.getD i ⟨Sum.inl none, false⟩).pay with
  | Sum.inr a => a
  | Sum.inl _ => dflt

/-- Write through `operator[]`: replaces the payload, leaves `valid`
untouched. -/
def FLVec.writeIdx (v : FLVec α) (i : Nat) (a : α) : FLVec α :=
  let e := v.data.getD i ⟨Sum.inl none, false⟩
  ⟨v.data.set i ⟨Sum.inr a, e.valid⟩, v.next_free⟩

/-! ## Archetype ECS, from src/src/ecs/ecs.cpp (`SmallWorld`).

The template's component type list is embedded as the list of the
components' byte sizes; a component value is its list of bytes (each byte
a natural). Archetype tables are raw byte buffers; `memcpy` is list
surgery, `realloc` preserves the prefix and makes the rest indeterminate
(zeros here). `std::flat_map` is an association list. Buffer reads and
writes out of allocated range — undefined behavior in C — fall through
`List.take`/`List.drop` totality. -/

structure EntitySpec where
  signature : Nat
  row : Nat
deriving DecidableEq, Repr

instance : Inhabited EntitySpec := ⟨⟨0, 0⟩⟩

structure ArchetypeTable where
  buf : List Nat
  size : Nat
  capacity : Nat
  prefab_size : Nat
deriving DecidableEq, Repr

instance : Inhabited ArchetypeTable := ⟨⟨[], 0, 0, 0⟩⟩

structure SmallWorld where
  entity_specs : FLVec EntitySpec
  archetypes : List (Nat × ArchetypeTable)
deriving Repr

def SmallWorld.empty : SmallWorld := ⟨FLVec.empty EntitySpec, []⟩

def archContains (l : List (Nat × ArchetypeTable)) (sig : Nat) : Bool :=
  l.any (fun p => p.1 == sig)

def archGet (l : List (Nat × ArchetypeTable)) (sig : Nat) : ArchetypeTable :=
  match l.find? (fun p => p.1 == sig) with
  | some p => p.2
  | none => default

def archSet : List (Nat × ArchetypeTable) → Nat → ArchetypeTable →
    List (Nat × ArchetypeTable)
  | [], sig, t => [(sig, t)]
  | (a, b) :: rest, sig, t =>
      if a = sig then (sig, t) :: rest else (a, b) :: archSet rest sig t

/-- Model of `sizeof` of component `cid` in the declared list. -/
def componentSize (sizes : List Nat) (cid : Nat) : Nat := sizes.getD cid 0

/-- Model of `archetype_prefab_size` (lines 90-95): sum of sizes of present
components. -/
def archetypePrefabSize (sizes : List Nat) (sig : Nat) : Nat :=
  (List.range sizes.length).foldl
    (fun acc i => acc + if (sig >>> i) % 2 = 1 then componentSize sizes i else 0) 0

/-- Model of `component_offset<Id>` (lines 97-103): sum of sizes of lower-id
present components. -/
def componentOffset (sizes : List Nat) (cid : Nat) (sig : Nat) : Nat :=
  (List.range cid).foldl
    (fun acc i => acc + if (sig >>> i) % 2 = 1 then componentSize sizes i else 0) 0

/-- Model of `memcpy(dst + dOff, src + sOff, n)` on byte lists. -/
def memcpyBytes (dst : List Nat) (dOff : Nat) (src : List Nat) (sOff n : Nat) :
    List Nat :=
  dst.take dOff ++ (src.drop sOff).take n ++ dst.drop (dOff + n)

/-- Model of `realloc` to `n` bytes: keep the prefix, new tail indeterminate. -/
def growBuf (b : List Nat) (n : Nat) : List Nat :=
  if b.length ≤ n then b ++ List.replicate (n - b.length) 0 else b.take n

/-- Model of `++size` then the 1.5x growth (minimum capacity 2) with `realloc`, as
written identically at ecs.cpp lines 150-157, 175-181 and 240-246. -/
def bumpAndGrow (t : ArchetypeTable) : ArchetypeTable :=
  let sz := t.size + 1
  if sz > t.capacity then
    let c1 := t.capacity + t.capacity / 2
    let c2 := if c1 < 2 then 2 else c1
    { t with size := sz, capacity := c2, buf := growBuf t.buf (c2 * t.prefab_size) }
  else { t with size := sz }

/-- Model of `create_archetype_if_needed` (lines 269-277): `malloc(prefab_size)`
bytes, size 0, capacity 1. -/
def createArchetypeIfNeeded (sizes : List Nat) (w : SmallWorld) (sig : Nat) :
    SmallWorld :=
  if archContains w.archetypes sig then w
  else
    let prefab := archetypePrefabSize sizes sig
    { w with archetypes := archSet w.archetypes sig ⟨List.replicate prefab 0, 0, 1, prefab⟩ }

/-- Model of `create_entity` (lines 105-108): default-constructed `EntitySpec`. -/
def SmallWorld.createEntity (w : SmallWorld) : SmallWorld × Nat :=
  let (v, e) := w.entity_specs.emplace ⟨0, 0⟩
  ({ w with entity_specs := v }, e)

/-- Model of `get<T>` (lines 110-124): nothing when the bit is unset; otherwise
the `sizeof(T)` bytes at the component's offset in the entity's row. -/
def SmallWorld.getComp (sizes : List Nat) (cid : Nat) (w : SmallWorld)
    (e : Nat) : Option (List Nat) :=
  let spec := w.entity_specs.readIdx e default
  if (spec.signature >>> cid) % 2 = 0 then none
  else
    let arch := archGet w.archetypes spec.signature
    let column := componentOffset sizes cid spec.signature
    some (((arch.buf.drop (spec.row * arch.prefab_size + column)).take
      (componentSize sizes cid)))

/-- Model of `emplace<T>` (lines 126-204), faithfully including: the in-place
branch resetting `row` to `size - 1`; `std::construct_at((T*)new_row_ptr
+ column, ...)` on the migration path, whose pointer arithmetic lands the
new component at byte offset `column * sizeof(T)`; and the swap-and-pop
in the old archetype that rewrites no displaced entity's spec. -/
def SmallWorld.emplaceComp (sizes : List Nat) (cid : Nat) (bytes : List Nat)
    (w : SmallWorld) (e : Nat) : SmallWorld :=
  let spec := w.entity_specs.readIdx e default
  let signature := spec.signature
  if (signature >>> cid) % 2 ≠ 0 then
    let arch := archGet w.archetypes signature
    let column := componentOffset sizes cid signature
    let buf1 := memcpyBytes arch.buf (spec.row * arch.prefab_size + column)
      bytes 0 (componentSize sizes cid)
    let w1 := { w with archetypes := archSet w.archetypes signature { arch with buf := buf1 } }
    { w1 with entity_specs := w1.entity_specs.writeIdx e ⟨signature, arch.size - 1⟩ }
  else
    let new_signature := signature ||| (2 ^ cid)
    let column := componentOffset sizes cid new_signature
    if signature = 0 then
      let w1 := createArchetypeIfNeeded sizes w new_signature
      let na := bumpAndGrow (archGet w1.archetypes new_signature)
      let new_row_off := (na.size - 1) * na.prefab_size
      let buf2 := memcpyBytes na.buf new_row_off bytes 0 (componentSize sizes cid)
      let archs2 := archSet w1.archetypes new_signature { na with buf := buf2 }
      let w2 := { w1 with archetypes := archs2 }
      { w2 with entity_specs := w2.entity_specs.writeIdx e ⟨new_signature, na.size - 1⟩ }
    else
      let w1 := createArchetypeIfNeeded sizes w new_signature
      let oa := archGet w1.archetypes signature
      let na := bumpAndGrow (archGet w1.archetypes new_signature)
      let old_row := spec.row
      let old_off := old_row * oa.prefab_size
      let new_row_off := (na.size - 1) * na.prefab_size
      let csz := componentSize sizes cid
      let buf2 := memcpyBytes na.buf new_row_off oa.buf old_off column
      let buf3 := memcpyBytes buf2 (new_row_off + column * csz) bytes 0 csz
      let buf4 := memcpyBytes buf3 (new_row_off + column + csz) oa.buf
        (old_off + column) (oa.prefab_size - column)
      let last_row := oa.size - 1
      let obuf := if old_row ≠ last_row then
          memcpyBytes oa.buf old_off oa.buf (last_row * oa.prefab_size) oa.prefab_size
        else oa.buf
      let archs2 := archSet w1.archetypes new_signature { na with buf := buf4 }
      let archs3 := archSet archs2 signature { oa with buf := obuf, size := oa.size - 1 }
      let w2 := { w1 with archetypes := archs3 }
      { w2 with entity_specs := w2.entity_specs.writeIdx e ⟨new_signature, na.size - 1⟩ }

/-- Model of `erase<T>` (lines 206-267), faithfully including: the
resulting-signature-0 branch that swap-and-pops the old row and returns
without touching `entity_specs[entity]`; and the swap-and-pop that never
fixes the displaced entity's recorded row. -/
def SmallWorld.eraseComp (sizes : List Nat) (cid : Nat) (w : SmallWorld)
    (e : Nat) : SmallWorld :=
  let spec := w.entity_specs.readIdx e default
  let signature := spec.signature
  if (signature >>> cid) % 2 = 0 then w
  else
    let new_signature := signature - 2 ^ cid
    if new_signature = 0 then
      let oa := archGet w.archetypes signature
      let old_row := spec.row
      let last_row := oa.size - 1
      let obuf := if old_row ≠ last_row then
          memcpyBytes oa.buf (old_row * oa.prefab_size) oa.buf
            (last_row * oa.prefab_size) oa.prefab_size
        else oa.buf
      let archs1 := archSet w.archetypes signature { oa with buf := obuf, size := oa.size - 1 }
      { w with archetypes := archs1 }
    else
      let column := componentOffset sizes cid signature
      let w1 := createArchetypeIfNeeded sizes w new_signature
      let oa := archGet w1.archetypes signature
      let na := bumpAndGrow (archGet w1.archetypes new_signature)
      let old_row := spec.row
      let old_off := old_row * oa.prefab_size
      let new_row_off := (na.size - 1) * na.prefab_size
      let csz := componentSize sizes cid
      let buf2 := memcpyBytes na.buf new_row_off oa.buf old_off column
      let buf3 := memcpyBytes buf2 (new_row_off + column) oa.buf
        (old_off + column + csz) (na.prefab_size - column)
      let last_row := oa.size - 1
      let obuf := if old_row ≠ last_row then
          memcpyBytes oa.buf old_off oa.buf (last_row * oa.prefab_size) oa.prefab_size
        else oa.buf
      let archs2 := archSet w1.archetypes new_signature { na with buf := buf3 }
      let archs3 := archSet archs2 signature { oa with buf := obuf, size := oa.size - 1 }
      let w2 := { w1 with archetypes := archs3 }
      { w2 with entity_specs := w2.entity_specs.writeIdx e ⟨new_signature, na.size - 1⟩ }

/-! ## Concrete scenarios used by the theorems below. -/

/-- A box `[a, b] × [0, 1]`. -/
def sbox (a b : ℚ) : AABB := ⟨⟨a, 0⟩, ⟨b, 1⟩⟩

/-- Entry set for the enumeration scenarios: three live keys with
overlapping tight AABBs (margin 0, so the stored fat AABBs equal them). -/
def entries3 : EntryMap := [((1, 0), sbox 0 10), ((2, 0), sbox 5 15), ((0, 0), sbox 8 13)]

/-- A well-formed three-leaf tree over `entries3`: the left subtree holds
the leaves of keys `(1,0)` and `(2,0)`, the right leaf holds `(0,0)`. All
groups are 0, so no pair is group-pruned. -/
def tree3 : WTree :=
  .node 10 (sbox 0 15) 0
    (.node 11 (sbox 0 15) 0
      (.leaf 0 (1, 0) (sbox 0 10) 0)
      (.leaf 1 (2, 0) (sbox 5 15) 0))
    (.leaf 2 (0, 0) (sbox 8 13) 0)

/-- The pair list the walk actually produces on `tree3` (established by
evaluation in the theorems below): the pair of keys `(0,0)` and `(1,0)`
is missing although their AABBs intersect, the pair of `(2,0)` and
`(1,0)` is emitted twice and ordered with the larger key first. -/
def pairs3 : List (CKey × CKey) := [((0, 0), (2, 0)), ((2, 0), (1, 0)), ((2, 0), (1, 0))]

/-- Two infinite-mass entries moving toward each other: unit half-extent
boxes at x = 0 and x = 1, velocities +1 and -1 along x. -/
def heavy0 : Entry := ⟨⟨⟨0, 0⟩, ⟨1, 1⟩⟩, ⟨1, 0⟩, 0, 1, 0, 0⟩

def heavy1 : Entry := ⟨⟨⟨1, 0⟩, ⟨1, 1⟩⟩, ⟨-1, 0⟩, 0, 1, 0, 0⟩

/-- The ECS scenarios use a single declared component of size one byte
(`sizes = [1]`, component id 0). -/
def sizes1 : List Nat := [1]

/-- C1 scenario: two entities each given the one-byte component (values
7 and 9, rows 0 and 1 of archetype signature 1), then the component is
erased from the first entity. The swap-and-pop moves the last row into
row 0 but never rewrites the second entity's recorded row. -/
def worldTwo : SmallWorld :=
  let p0 := SmallWorld.empty.createEntity
  let w1 := p0.1.emplaceComp sizes1 0 [7] p0.2
  let p1 := w1.createEntity
  let w2 := p1.1.emplaceComp sizes1 0 [9] p1.2
  w2.eraseComp sizes1 0 0

/-- C8 scenario: one entity, the one-byte component emplaced (value 7)
and then erased, which takes the resulting-signature-0 branch of
`erase<T>`. -/
def worldOne : SmallWorld :=
  let p0 := SmallWorld.empty.createEntity
  let w1 := p0.1.emplaceComp sizes1 0 [7] p0.2
  w1.eraseComp sizes1 0 0

/-- SlotMap with one element, for the C6 witness. -/
def smapOne : SMap Nat := ((SMap.empty Nat).emplace 5).1

/-- FreelistVector with three live slots, for the C9 witness. -/
def flvThree : FLVec Nat :=
  (((((FLVec.empty Nat).emplace 10).1.emplace 20).1).emplace 30).1

/-- A key is stale in a SlotMap when its slot exists but the stored
generation differs — `find` then returns `end()` forever until the
generation is changed again. -/
def staleAt {α : Type} (s : SMap α) (k : SKey) : Prop :=
  k.idx < s.slots.length ∧ (s.slots.getD k.idx default).gen ≠ k.gen

/-- Small trees for the C7 witness. -/
def ptreeW : PTree :=
  .node (sbox 0 6)
    (.node (sbox 0 4) (.leaf (sbox 0 1)) (.leaf (sbox 3 4)))
    (.leaf (sbox 5 6))

def fatW : AABB := sbox 3 4

/-! ## Theorems. -/

/-- Area is monotone under merging on the left argument. -/
theorem vol_le_merge_left (a b : AABB) (ha : aabbWF a = true) (hb : aabbWF b = true) :
    aabb_volume a ≤ aabb_volume (aabb_merge a b) := by
  simp only [aabbWF, decide_eq_true_eq] at ha hb
  obtain ⟨hax, hay⟩ := ha
  obtain ⟨hbx, hby⟩ := hb
  simp only [aabb_volume, aabb_merge, vmin, vmax]
  have h1 : a.hi.x - a.lo.x ≤ max a.hi.x b.hi.x - min a.lo.x b.lo.x := by
    have := le_max_left a.hi.x b.hi.x
    have := min_le_left a.lo.x b.lo.x
    linarith
  have h2 : a.hi.y - a.lo.y ≤ max a.hi.y b.hi.y - min a.lo.y b.lo.y := by
    have := le_max_left a.hi.y b.hi.y
    have := min_le_left a.lo.y b.lo.y
    linarith
  exact mul_le_mul h1 h2 (by linarith) (by linarith)

/-- Area is monotone under merging on the right argument. -/
theorem vol_le_merge_right (a b : AABB) (ha : aabbWF a = true) (hb : aabbWF b = true) :
    aabb_volume b ≤ aabb_volume (aabb_merge a b) := by
  simp only [aabbWF, decide_eq_true_eq] at ha hb
  obtain ⟨hax, hay⟩ := ha
  obtain ⟨hbx, hby⟩ := hb
  simp only [aabb_volume, aabb_merge, vmin, vmax]
  have h1 : b.hi.x - b.lo.x ≤ max a.hi.x b.hi.x - min a.lo.x b.lo.x := by
    have := le_max_right a.hi.x b.hi.x
    have := min_le_right a.lo.x b.lo.x
    linarith
  have h2 : b.hi.y - b.lo.y ≤ max a.hi.y b.hi.y - min a.lo.y b.lo.y := by
    have := le_max_right a.hi.y b.hi.y
    have := min_le_right a.lo.y b.lo.y
    linarith
  exact mul_le_mul h1 h2 (by linarith) (by linarith)

/-- Folding `improve` over candidates none of which strictly beats the
incumbent leaves the incumbent. -/
theorem foldl_improve_eq (b : Cand) (L : List Cand) (h : ∀ x ∈ L, ¬ x.2 < b.2) :
    L.foldl improve b = b := by
  induction L with
  | nil => rfl
  | cons x xs ih =>
      have hx := h x (List.mem_cons_self _ _)
      simp only [List.foldl_cons, improve, if_neg hx]
      exact ih (fun y hy => h y (List.mem_cons_of_mem _ hy))

/-- Every candidate under a well-formed subtree costs at least
`area(newleaf) + acml` — the branch-and-bound pruning bound. -/
theorem allCosts_lb (fat : AABB) (hf : aabbWF fat = true) (t : PTree) :
    ∀ acml path x, ptreeWF t = true → x ∈ allCosts fat t acml path →
      aabb_volume fat + acml ≤ x.2 := by
  induction t with
  | leaf box =>
      intro acml path x hw hx
      simp only [allCosts, List.mem_singleton] at hx
      subst hx
      have := vol_le_merge_left fat box hf (by simpa [ptreeWF] using hw)
      simp only
      linarith
  | node box l r ihl ihr =>
      intro acml path x hw hx
      simp only [ptreeWF, Bool.and_eq_true] at hw
      obtain ⟨⟨hbox, hl⟩, hr⟩ := hw
      have hd : 0 ≤ aabb_volume (aabb_merge fat box) - aabb_volume box := by
        have := vol_le_merge_right fat box hf hbox
        linarith
      simp only [allCosts, List.mem_cons, List.mem_append] at hx
      rcases hx with hx | hx | hx
      · subst hx
        have := vol_le_merge_left fat box hf hbox
        simp only
        linarith
      · have := ihl _ _ x hl hx
        linarith
      · have := ihr _ _ x hr hx
        linarith

/-- The pruned helper computes exactly the fold of `improve` over the
whole preorder candidate list. -/
theorem findBestHelper_eq (fat : AABB) (hf : aabbWF fat = true) (t : PTree) :
    ∀ b acml path, ptreeWF t = true →
      findBestHelper fat b acml t path = (allCosts fat t acml path).foldl improve b := by
  induction t with
  | leaf box =>
      intro b acml path _
      simp [findBestHelper, allCosts]
  | node box l r ihl ihr =>
      intro b acml path hw
      simp only [ptreeWF, Bool.and_eq_true] at hw
      obtain ⟨⟨hbox, hl⟩, hr⟩ := hw
      simp only [findBestHelper, allCosts, List.foldl_cons, List.foldl_append]
      split
      · rw [ihl _ _ _ hl, ihr _ _ _ hr]
      · rename_i hcond
        push_neg at hcond
        have hL : ∀ x ∈ allCosts fat l
            (acml + (aabb_volume (aabb_merge fat box) - aabb_volume box)) (path ++ [false]),
            ¬ x.2 < (improve b (path, aabb_volume (aabb_merge fat box) + acml)).2 := by
          intro x hx
          have := allCosts_lb fat hf l _ _ x hl hx
          intro hlt
          linarith
        have hR : ∀ x ∈ allCosts fat r
            (acml + (aabb_volume (aabb_merge fat box) - aabb_volume box)) (path ++ [true]),
            ¬ x.2 < (improve b (path, aabb_volume (aabb_merge fat box) + acml)).2 := by
          intro x hx
          have := allCosts_lb fat hf r _ _ x hr hx
          intro hlt
          linarith
        rw [foldl_improve_eq _ _ hL, foldl_improve_eq _ _ hR]

/-- C7: for every well-formed tree and every new leaf fat-AABB, the
branch-and-bound sibling search of `_tree_insert` returns the same best
node (same preorder position, same cost) as exhaustive search over all
nodes minimizing enclosing area plus accumulated inherited cost, ties
resolved to the first candidate in left-first preorder. -/
theorem C7_sibling_search_refines_exhaustive (t : PTree) (fat : AABB)
    (hw : ptreeWF t = true) (hf : aabbWF fat = true) :
    findBest fat t = exhaustiveBest fat t := by
  have key := findBestHelper_eq fat hf t ([], aabb_volume (aabb_merge fat t.box)) 0 [] hw
  cases t with
  | leaf box =>
      simp [findBest, exhaustiveBest, findBestHelper, allCosts, improve, PTree.box]
  | node box l r =>
      rw [findBest, key]
      simp only [allCosts, exhaustiveBest, List.foldl_cons]
      have himp : improve ([], aabb_volume (aabb_merge fat (PTree.node box l r).box))
          ([], aabb_volume (aabb_merge fat box) + 0) =
          ([], aabb_volume (aabb_merge fat box) + 0) := by
        simp [improve, PTree.box]
      rw [himp]

theorem C7_sibling_search_witness :
    ptreeWF ptreeW = true ∧ aabbWF fatW = true ∧
      findBest fatW ptreeW = exhaustiveBest fatW ptreeW :=
  ⟨by decide, by decide,
    C7_sibling_search_refines_exhaustive ptreeW fatW (by decide) (by decide)⟩

/-- C10: erasing by a key whose slot index is out of range or whose
generation mismatches the slot's returns `end()` and leaves the map
completely unchanged. -/
theorem C10_erase_stale_key_no_mutation {α : Type} [Inhabited α] (s : SMap α) (k : SKey)
    (h : s.slots.length ≤ k.idx ∨ (s.slots.getD k.idx default).gen ≠ k.gen) :
    s.eraseKey k = (s, s.data.length) := by
  have hfind : s.find k = none := by
    unfold SMap.find
    split
    · rename_i hlt
      rw [if_neg]
      rcases h with h | h
      · omega
      · intro he
        apply h
        rw [List.getD_eq_getElem?_getD, List.getElem?_eq_getElem hlt]
        simpa using he
    · rfl
  unfold SMap.eraseKey
  rw [hfind]

theorem C10_erase_stale_key_witness :
    (smapOne.slots.length ≤ (5 : Nat) ∨ (smapOne.slots.getD 5 default).gen ≠ 0) ∧
      smapOne.eraseKey ⟨5, 0⟩ = (smapOne, smapOne.data.length) :=
  ⟨Or.inl (by decide), C10_erase_stale_key_no_mutation smapOne ⟨5, 0⟩ (Or.inl (by decide))⟩

/-- C9: with live slots `a ≠ b`, the sequence erase(a), erase(b),
emplace(x), emplace(y) reuses the freed slots LIFO: first `b`, then `a`. -/
theorem C9_freelist_lifo {α : Type} (v : FLVec α) (x y : α) (a b : Nat) (hab : a ≠ b)
    (ha : a < v.data.length) (hb : b < v.data.length)
    (hva : (v.data.getD a ⟨Sum.inl none, false⟩).valid = true)
    (hvb : (v.data.getD b ⟨Sum.inl none, false⟩).valid = true) :
    (((v.eraseIdx a).eraseIdx b).emplace x).2 = b ∧
      ((((v.eraseIdx a).eraseIdx b).emplace x).1.emplace y).2 = a := by
  rw [List.getD_eq_getElem?_getD] at hva hvb
  have h1 : v.eraseIdx a =
      ⟨v.data.set a ⟨Sum.inl v.next_free, false⟩, some a⟩ := by
    unfold FLVec.eraseIdx
    rw [if_neg (by simp [List.getD_eq_getElem?_getD, hva])]
  have h2 : (v.eraseIdx a).eraseIdx b =
      ⟨(v.data.set a ⟨Sum.inl v.next_free, false⟩).set b ⟨Sum.inl (some a), false⟩,
        some b⟩ := by
    rw [h1]
    unfold FLVec.eraseIdx
    rw [if_neg (by simp [List.getD_eq_getElem?_getD, List.getElem?_set_ne hab, hvb])]
  have hlb : b < ((v.data.set a ⟨Sum.inl v.next_free, false⟩)).length := by
    simpa using hb
  have h3 : ((v.eraseIdx a).eraseIdx b).emplace x =
      (⟨((v.data.set a ⟨Sum.inl v.next_free, false⟩).set b
          ⟨Sum.inl (some a), false⟩).set b ⟨Sum.inr x, true⟩, some a⟩, b) := by
    rw [h2]
    unfold FLVec.emplace
    simp only [List.getD_eq_getElem?_getD, List.getElem?_set_eq_of_lt _ hlb,
      Option.getD_some, FLElem.nextOf]
  refine ⟨by rw [h3], ?_⟩
  rw [h3]
  unfold FLVec.emplace
  simp

theorem C9_freelist_lifo_witness :
    (0 : Nat) ≠ 2 ∧ 0 < flvThree.data.length ∧ 2 < flvThree.data.length ∧
      (flvThree.data.getD 0 ⟨Sum.inl none, false⟩).valid = true ∧
      (flvThree.data.getD 2 ⟨Sum.inl none, false⟩).valid = true ∧
      (((flvThree.eraseIdx 0).eraseIdx 2).emplace 99).2 = 2 ∧
      ((((flvThree.eraseIdx 0).eraseIdx 2).emplace 99).1.emplace 98).2 = 0 := by
  refine ⟨by decide, by decide, by decide, by decide, by decide, ?_⟩
  exact C9_freelist_lifo flvThree 99 98 0 2 (by decide) (by decide) (by decide)
    (by decide) (by decide)

/-- Setting a slot to a `setIdx` image of itself never changes any slot's
generation (nor the list's length). -/
theorem getD_gen_set_setIdx (l : List SKey) (i j v : Nat) :
    ((l.set i (setIdx (l.getD i default) v)).getD j default).gen
      = (l.getD j default).gen := by
  rcases eq_or_ne i j with rfl | hne
  · by_cases h : i < l.length
    · simp [List.getD_eq_getElem?_getD, List.getElem?_set_eq_of_lt _ h, setIdx]
    · rw [List.set_eq_of_length_le (by omega)]
  · simp [List.getD_eq_getElem?_getD, List.getElem?_set_ne hne]

/-- The `emplace` operation never changes the generation stored in an existing slot,
and never shrinks the slot array. -/
theorem emplace_preserves_stale {α : Type} (s : SMap α) (v : α) (k : SKey)
    (h : staleAt s k) : staleAt (s.emplace v).1 k := by
  obtain ⟨hlen, hgen⟩ := h
  by_cases hgrow : s.next_slot_idx = s.slots.length
  · constructor
    · simp only [SMap.emplace, if_pos hgrow, List.length_set, List.length_append,
        List.length_singleton]
      omega
    · simp only [SMap.emplace, if_pos hgrow]
      rw [getD_gen_set_setIdx]
      rw [List.getD_eq_getElem?_getD, List.getElem?_append_left hlen,
        ← List.getD_eq_getElem?_getD]
      exact hgen
  · constructor
    · simp only [SMap.emplace, if_neg hgrow, List.length_set]
      exact hlen
    · simp only [SMap.emplace, if_neg hgrow]
      rw [getD_gen_set_setIdx]
      exact hgen

/-- Staleness survives any number of further inserts. -/
theorem insertAll_preserves_stale {α : Type} [Inhabited α] (vs : List α) (s : SMap α)
    (k : SKey) (h : staleAt s k) : staleAt (s.insertAll vs) k := by
  induction vs generalizing s with
  | nil => exact h
  | cons v vs ih =>
      exact ih _ (emplace_preserves_stale s v k h)

/-- A stale key resolves to `end()`. -/
theorem find_eq_none_of_stale {α : Type} (s : SMap α) (k : SKey) (h : staleAt s k) :
    s.find k = none := by
  obtain ⟨hlen, hgen⟩ := h
  unfold SMap.find
  rw [dif_pos hlen, if_neg]
  intro he
  apply hgen
  rw [List.getD_eq_getElem?_getD, List.getElem?_eq_getElem hlen]
  simpa using he

/-- Setting slot `si` to its generation-bumped image yields generation
`+1 mod 2^32` there. -/
theorem set_bump_gen (l : List SKey) (si nsi : Nat) (h : si < l.length) :
    ((l.set si (increaseGen (setIdx (l.getD si default) nsi))).getD si default).gen
      = ((l.getD si default).gen + 1) % 2 ^ 32 := by
  simp [List.getD_eq_getElem?_getD, List.getElem?_set_eq_of_lt _ h, increaseGen, setIdx]

/-- The `erase(const_iterator)` operation bumps (exactly) the generation of the slot
that `data_map` names for the erased position, and never changes the
number of slots. -/
theorem eraseIter_gen_bump {α : Type} [Inhabited α] (s : SMap α) (p : Nat)
    (hsi : s.data_map.getD p 0 < s.slots.length) :
    ((s.eraseIter p).1.slots.getD (s.data_map.getD p 0) default).gen
        = ((s.slots.getD (s.data_map.getD p 0) default).gen + 1) % 2 ^ 32 ∧
      (s.eraseIter p).1.slots.length = s.slots.length := by
  simp only [SMap.eraseIter]
  split
  · constructor
    · rw [set_bump_gen _ _ _ (by simpa using hsi), getD_gen_set_setIdx]
    · simp
  · constructor
    · rw [set_bump_gen _ _ _ hsi]
    · simp

/-- C6: for a key `k` that is live in the map (resolvable by `find`, with
the reverse map `data_map` naming its slot), after `erase(k)` and any
number of further inserts, `find(k)` is `end()` and `at(k)` is empty —
whether or not the slot was reused. -/
theorem C6_handle_invalidation {α : Type} [Inhabited α] (s : SMap α) (k : SKey)
    (d : Nat) (vs : List α) (hfind : s.find k = some d) (hd : d < s.data.length)
    (hmap : s.data_map.getD d 0 = k.idx) :
    ((s.eraseKey k).1.insertAll vs).find k = none ∧
      ((s.eraseKey k).1.insertAll vs).atKey k = none := by
  have hlen : k.idx < s.slots.length := by
    by_contra h
    unfold SMap.find at hfind
    rw [dif_neg h] at hfind
    exact Option.noConfusion hfind
  have hslot : (s.slots.get ⟨k.idx, hlen⟩).gen = k.gen := by
    unfold SMap.find at hfind
    rw [dif_pos hlen] at hfind
    by_cases hg : (s.slots.get ⟨k.idx, hlen⟩).gen = k.gen
    · exact hg
    · rw [if_neg hg] at hfind
      exact Option.noConfusion hfind
  have hek : (s.eraseKey k).1 = (s.eraseIter d).1 := by
    unfold SMap.eraseKey
    rw [hfind]
    simp [Nat.ne_of_lt hd]
  have hsi : s.data_map.getD d 0 < s.slots.length := by
    rw [hmap]
    exact hlen
  have hbump := eraseIter_gen_bump s d hsi
  rw [hmap] at hbump
  have hkgen : (s.slots.getD k.idx default).gen = k.gen := by
    rw [List.getD_eq_getElem?_getD, List.getElem?_eq_getElem hlen]
    simpa using hslot
  have hstale : staleAt (s.eraseKey k).1 k := by
    rw [hek]
    refine ⟨by rw [hbump.2]; exact hlen, ?_⟩
    rw [hbump.1, hkgen]
    omega
  have hfnone := find_eq_none_of_stale _ k (insertAll_preserves_stale vs _ k hstale)
  refine ⟨hfnone, ?_⟩
  unfold SMap.atKey
  rw [hfnone]

theorem C6_handle_invalidation_witness :
    smapOne.find ⟨0, 0⟩ = some 0 ∧ 0 < smapOne.data.length ∧
      smapOne.data_map.getD 0 0 = (0 : Nat) ∧
      ((smapOne.eraseKey ⟨0, 0⟩).1.insertAll [7, 8]).find ⟨0, 0⟩ = none ∧
      ((smapOne.eraseKey ⟨0, 0⟩).1.insertAll [7, 8]).atKey ⟨0, 0⟩ = none := by
  refine ⟨by decide, by decide, by decide, ?_⟩
  exact C6_handle_invalidation smapOne ⟨0, 0⟩ 0 [7, 8] (by decide) (by decide)
    (by decide)

/-- C1 (failing input): in `worldTwo`, after two entities each received
the single component and the first erased it, entity 1 is still live with
signature 1 and its archetype exists, yet its recorded row (1) is not
below the archetype's size (1): the swap-and-pop of `erase<T>` moved the
displaced entity's data to row 0 without rewriting its `EntitySpec.row`.
This violates the archetype row-consistency invariant of the claim. -/
theorem C1_row_consistency_fails :
    (worldTwo.entity_specs.atIdx 1).isSome = true ∧
      (worldTwo.entity_specs.readIdx 1 default).signature = 1 ∧
      archContains worldTwo.archetypes 1 = true ∧
      (archGet worldTwo.archetypes 1).size = 1 ∧
      (worldTwo.entity_specs.readIdx 1 default).row = 1 ∧
      ¬ ((worldTwo.entity_specs.readIdx 1 default).row
          < (archGet worldTwo.archetypes 1).size) := by
  decide

/-- C2 (failing input): two infinite-mass entries moving toward each
other. For any host-supplied length function, `resolve_collider` reaches
the unguarded `j /= e0->invmass + e1->invmass` with a zero denominator
(`none` here, NaN in C) instead of skipping the pair with both entries
unchanged as the claim requires. -/
theorem C2_infinite_mass_divides (len : Vec2 → ℚ) :
    resolve_collider len heavy0 heavy1 = none := by
  simp only [resolve_collider, heavy0, heavy1, vsub, vadd, vabs, vdot, vscale]
  norm_num

/-- C3 (failing input): on the well-formed `tree3` over `entries3` with
all groups 0 and margin 0, the keys `(0,0)` and `(1,0)` have intersecting
stored AABBs, yet the enumeration's sorted output (computed here in full)
contains their pair in neither order: a false negative, caused by
`std::swap(node0->key, node1->key)` rewriting the keys stored in the tree
during the walk. -/
theorem C3_pair_completeness_fails :
    treeGetCollidedPairs entries3 tree3 100 = some pairs3 ∧
      wtreeWF entries3 tree3 = true ∧
      aabb_intersects (sbox 8 13) (sbox 0 10) = true ∧
      entryBox entries3 (0, 0) = some (sbox 8 13) ∧
      entryBox entries3 (1, 0) = some (sbox 0 10) ∧
      ((0, 0), (1, 0)) ∉ pairs3 ∧ ((1, 0), (0, 0)) ∉ pairs3 := by
  decide

/-- C4 (failing input): on the same well-formed tree the returned list is
`[((0,0),(2,0)), ((2,0),(1,0)), ((2,0),(1,0))]`: positions 1 and 2 hold
the same pair, so the list is not strictly lexicographically increasing
and not duplicate-free, and the emitted pair `((2,0),(1,0))` is ordered
(max, min) rather than (min, max). -/
theorem C4_pair_sortedness_fails :
    treeGetCollidedPairs entries3 tree3 100 = some pairs3 ∧
      wtreeWF entries3 tree3 = true ∧
      pairs3.get? 1 = some ((2, 0), (1, 0)) ∧
      pairs3.get? 2 = some ((2, 0), (1, 0)) ∧
      ((2, 0), (1, 0)) ∈ pairs3 ∧ ckLt (1, 0) (2, 0) = true := by
  decide

/-- C5 (failing input): with the pair cache produced by the enumeration
on `tree3`, the unordered pair of live keys `(0,0)` and `(1,0)` is not an
element of the cache, yet `is_collided` returns `true`: its
`std::lower_bound` result is only compared against `end()`, never
dereferenced for equality with the probe. -/
theorem C5_is_collided_false_positive :
    treeGetCollidedPairs entries3 tree3 100 = some pairs3 ∧
      ((0, 0), (1, 0)) ∉ pairs3 ∧ ((1, 0), (0, 0)) ∉ pairs3 ∧
      (entryBox entries3 (0, 0)).isSome = true ∧
      (entryBox entries3 (1, 0)).isSome = true ∧
      is_collided pairs3 entries3 (0, 0) (1, 0) = true := by
  decide

/-- C8 (failing input): in `worldOne` the only entity's only component
was erased through the resulting-signature-0 branch of `erase<T>`, which
removes the row but returns without writing `entity_specs[entity]`: the
recorded signature remains 1 (not 0) and `get<T>` still returns a value
instead of being absent. -/
theorem C8_erase_to_empty_signature_stays :
    (worldOne.entity_specs.readIdx 0 default).signature = 1 ∧
      (worldOne.getComp sizes1 0 0).isSome = true ∧
      (archGet worldOne.archetypes 1).size = 0 := by
  decide

end Cactus
